import Mathlib

/-!
# Verification of the MyENHANCe entitlement ledger (src/functions/index.js)

Shallow embedding of the Firebase/Express functions in `src/functions/index.js`:
the Firestore state is modelled as association lists keyed by document id,
JavaScript objects as insertion-ordered association lists, and each HTTP
handler as a pure function from the store (and a wall-clock month) to a new
store plus a response.  JavaScript exceptions that escape a handler are
modelled with `Except`.

Modelling conventions, each justified by the source:
* A purchases subcollection is held as a `List Purchase` already in the
  enumeration order used by every query in the source
  (`orderBy("purchased_at", "desc")`, newest first); `add` of a purchase at a
  later wall-clock instant therefore conses it at the front, and
  `purchased_at` itself is elided.
* Firestore document existence is independent of subcollection contents
  (`patients/{id}` may be absent while `patients/{id}/purchases` holds
  documents), so `patientDocs` and `purchases` are separate maps.
* Express responses: the first `res.status(..).send/json` wins; a later send
  on the same response raises and cannot change what the client received.
  Handlers are modelled as returning that first response.
* `forEach` with an `async` callback (in `useClaim`) runs each callback body
  up to its first `await` synchronously, in document order, and never awaits
  the update promises; in the pure model every callback's effect is applied
  in document order.
-/

/-- JavaScript exceptions that escape a handler body (uncaught `TypeError`
on a property access of `undefined`, Firestore rejections for an invalid
document path or an `update` on a missing document). -/
inductive JsError where
  | typeError
  | invalidDocPath
  | updateMissingDoc
  deriving Repr, DecidableEq

/-- One `{used, limit}` pair as stored under
`claims.claims_YYYY-MM.<claimName>` in a purchase document. -/
structure ClaimInfo where
  used : Nat
  limit : Nat
  deriving Repr, DecidableEq

/-- One element of a health plan's `claimable_items` array. -/
structure ClaimableItem where
  name : String
  limit : Nat
  deriving Repr, DecidableEq

/-- A `health_plans/{planId}` document. -/
structure Plan where
  name : String
  stripe_product_id : String
  stripe_price_id : String
  claimable_items : List ClaimableItem
  deriving Repr, DecidableEq

/-- A JavaScript object with string keys, as an insertion-ordered
association list. -/
def JsObj (α : Type) : Type := List (String × α)

/-- Property read `o[k]`: first binding wins (assoc lists built by
`jsObjSet` never hold duplicate keys, matching JS objects). -/
def jsLookup {α : Type} (l : List (String × α)) (k : String) : Option α :=
  (l.find? (fun p => p.1 = k)).map (·.2)

/-- Property write `o[k] = v`: overwrite in place when the key exists,
append otherwise (JS object insertion-order semantics). -/
def jsObjSet {α : Type} : List (String × α) → String → α → List (String × α)
  | [], k, v => [(k, v)]
  | (k', v') :: t, k, v =>
      if k' = k then (k, v) :: t else (k', v') :: jsObjSet t k v

/-- Modify the value bound to `k` when present; leave the list unchanged
when absent (a Firestore write to one existing document). -/
def assocMod {α : Type} : List (String × α) → String → (α → α) → List (String × α)
  | [], _, _ => []
  | (k', v') :: t, k, f =>
      if k' = k then (k', f v') :: t else (k', v') :: assocMod t k f

/-- A document in the `purchases` subcollection.  `claims` maps a month key
`claims_YYYY-MM` to the month's claim map. -/
structure Purchase where
  health_plan_name : String
  health_plan_id : String
  stripeCustomerId : String
  subscription_status : String
  claims : List (String × List (String × ClaimInfo))
  deriving Repr, DecidableEq

/-- A `patients/{id}` document.  `points` is `none` when the field is
absent (the source reads it as `doc.data().points || 0`);
`subscription_status` on the patient document is created only by
`handleSubscriptionUpdated`. -/
structure PatientData where
  points : Option Int
  stripeCustomerId : Option String
  subscription_status : Option String
  deriving Repr, DecidableEq

/-- The whole Firestore state touched by the source. -/
structure Store where
  health_plans : List (String × Plan)
  patientDocs : List (String × PatientData)
  purchases : List (String × List Purchase)
  deriving Repr, DecidableEq

/-- Wall-clock month: `year = new Date().getFullYear()`,
`month0 = new Date().getMonth()` (zero-based, as in JS). -/
structure MonthDate where
  year : Nat
  month0 : Nat
  deriving Repr, DecidableEq

/-- `String(n).padStart(2, "0")` for the 1-based month number. -/
def pad2 (n : Nat) : String :=
  if n < 10 then "0" ++ toString n else toString n

/-- The month key `claims_${year}-${month}` built at lines 112, 383 and 470
of the source. -/
def claimsKey (d : MonthDate) : String :=
  "claims_" ++ toString d.year ++ "-" ++ pad2 (d.month0 + 1)

/-- JavaScript `String.prototype.trim` whitespace (the code points that
occur in practice; the full JS set also has exotic Unicode spaces). -/
def isJsWhitespace (c : Char) : Bool :=
  c = ' ' || c = '\t' || c = '\n' || c = '\r' || c = '\x0b' || c = '\x0c'

/-- `s.trim()` on the underlying character list. -/
def jsTrimList (l : List Char) : List Char :=
  ((l.dropWhile isJsWhitespace).reverse.dropWhile isJsWhitespace).reverse

/-- `s.trim()`. -/
def jsTrim (s : String) : String :=
  String.mk (jsTrimList s.data)

/-- The id rewrite `id.trim() + "\n"` applied at lines 234, 319, 376, 460
and 519 of the source before the id is used as a document key. -/
def normalizeId (s : String) : String :=
  String.mk (jsTrimList s.data ++ ['\n'])

/-- The fields of a `checkout.session.completed` payload read by the
source: `client_reference_id`, `metadata.planId`, `customer`. -/
structure CheckoutSession where
  client_reference_id : String
  planId : String
  customer : String
  deriving Repr, DecidableEq

/-- The fields of a `customer.subscription.updated` payload read by the
source.  A real Stripe subscription object has no `client_reference_id`;
the field is therefore optional, `none` meaning `undefined`. -/
structure SubscriptionEvent where
  client_reference_id : Option String
  customer : String
  cancel_at_period_end : Bool
  deriving Repr, DecidableEq

/-- The month's claim map built at purchase time (lines 112–118):
`planData.claimable_items.reduce((claims, item) => { claims[item.name] =
{used: 0, limit: item.limit}; return claims; }, {})`. -/
def initMonthMap (items : List ClaimableItem) : List (String × ClaimInfo) :=
  items.foldl (fun m it => jsObjSet m it.name ⟨0, it.limit⟩) []

/-- The purchase document written by `handleCheckoutSessionCompleted`
(lines 104–120). -/
def newPurchase (sess : CheckoutSession) (plan : Plan) (d : MonthDate) : Purchase :=
  { health_plan_name := plan.name
    health_plan_id := sess.planId
    stripeCustomerId := sess.customer
    subscription_status := "active"
    claims := [(claimsKey d, initMonthMap plan.claimable_items)] }

/-- `handleCheckoutSessionCompleted` (lines 73–125).  When the plan lookup
misses, the source only logs (line 86) and then dereferences
`planData.name` / `planData.claimable_items` on `undefined`, raising a
`TypeError`.  When the patient lookup misses it only logs (line 96) and
still performs the `add` on the missing document's `purchases`
subcollection, which Firestore accepts. -/
def handleCheckoutSessionCompleted (sess : CheckoutSession) (d : MonthDate)
    (s : Store) : Except JsError Store :=
  match jsLookup s.health_plans sess.planId with
  | none => .error .typeError
  | some plan =>
      let uid := sess.client_reference_id
      let old := (jsLookup s.purchases uid).getD []
      .ok { s with purchases := jsObjSet s.purchases uid (newPurchase sess plan d :: old) }

/-- `handleSubscriptionUpdated` (lines 136–172).  Reads
`subscription.client_reference_id` (absent on real subscription payloads;
`.doc(undefined)` rejects), finds the first purchase of that patient whose
`stripeCustomerId` matches, and then updates `subscription_status` on the
**patient** document (`purchaseDoc.ref.parent.parent`, lines 158–171), not
on the purchase; `update` on a missing patient document rejects. -/
def handleSubscriptionUpdated (ev : SubscriptionEvent) (s : Store) :
    Except JsError Store :=
  match ev.client_reference_id with
  | none => .error .invalidDocPath
  | some uid =>
      let plist := (jsLookup s.purchases uid).getD []
      match plist.find? (fun p => p.stripeCustomerId = ev.customer) with
      | none => .ok s
      | some _ =>
          match jsLookup s.patientDocs uid with
          | none => .error .updateMissingDoc
          | some _ =>
              let st := if ev.cancel_at_period_end then "inactive" else "active"
              .ok { s with
                patientDocs := (assocMod s.patientDocs uid
                  (fun pd => { pd with subscription_status := some st })) }

/-- A webhook event after signature verification, tagged by `event.type`. -/
inductive StripeEvent where
  | checkoutCompleted (sess : CheckoutSession)
  | subscriptionUpdated (ev : SubscriptionEvent)
  | subscriptionDeleted
  | other (t : String)
  deriving Repr, DecidableEq

/-- The webhook's response as seen by the provider. -/
inductive WebhookResp where
  | badSignature
  | received
  deriving Repr, DecidableEq

/-- `stripeWebhook` (lines 27–59).  `sigOk` is the outcome of
`stripe.webhooks.constructEvent`; on failure the handler answers 400 before
touching any state.  The dispatch `await`s each handler with no `try`
around the `switch`, so an exception thrown by a handler escapes and the
`res.json({received: true})` at line 58 is never reached. -/
def stripeWebhook (sigOk : Bool) (ev : StripeEvent) (d : MonthDate) (s : Store) :
    Except JsError (Store × WebhookResp) :=
  if sigOk then
    match ev with
    | .checkoutCompleted sess =>
        (handleCheckoutSessionCompleted sess d s).map (fun s' => (s', .received))
    | .subscriptionUpdated e =>
        (handleSubscriptionUpdated e s).map (fun s' => (s', .received))
    | .subscriptionDeleted => .ok (s, .received)
    | .other _ => .ok (s, .received)
  else
    .ok (s, .badSignature)

/-- One row of the list returned by `getClaims`. -/
structure ClaimEntry where
  name : String
  used : Nat
  limit : Nat
  deriving Repr, DecidableEq

/-- Responses of `getClaims`. -/
inductive GetClaimsResp where
  | missingId
  | notFound
  | ok (claims : List ClaimEntry) (points : Int)
  deriving Repr, DecidableEq

/-- The flattening loop of `getClaims` (lines 426–439): for every purchase
in enumeration order, the current month's map (`{}` when the month key is
absent) is appended entry by entry. -/
def flattenClaims (ps : List Purchase) (key : String) : List ClaimEntry :=
  ps.foldl (fun acc p =>
    acc ++ ((jsLookup p.claims key).getD []).map
      (fun x => ClaimEntry.mk x.1 x.2.used x.2.limit)) []

/-- Body of `getClaims` after the id rewrite (lines 376–444).  The
`if (!patientId)` check runs on the already-rewritten id, which always ends
in `"\n"`, so the `missingId` branch is unreachable; it is kept to mirror
the source.  No write is issued anywhere in the body. -/
def getClaimsCore (pid : String) (s : Store) (d : MonthDate) :
    Store × GetClaimsResp :=
  if pid = "" then (s, .missingId)
  else
    match jsLookup s.patientDocs pid with
    | none => (s, .notFound)
    | some pd =>
        let points := pd.points.getD 0
        let plist := (jsLookup s.purchases pid).getD []
        (s, .ok (flattenClaims plist (claimsKey d)) points)

/-- `getClaims` (lines 373–450).  `q` is the `patientId` query parameter;
when it is absent, `patientId.trim()` at line 376 is a `TypeError` on
`undefined`, thrown before the `try` block. -/
def getClaims (q : Option String) (s : Store) (d : MonthDate) :
    Except JsError (Store × GetClaimsResp) :=
  match q with
  | none => .error .typeError
  | some raw => .ok (getClaimsCore (normalizeId raw) s d)

/-- Responses of `useClaim`. -/
inductive UseClaimResp where
  | badRequest
  | limitReached
  | notFound
  | ok
  deriving Repr, DecidableEq

/-- The `snapshot.forEach(async (doc) => ...)` loop of `useClaim`
(lines 481–499), processing every purchase in enumeration order.  Returns
the updated purchase list, the final `found` flag, and the first response
sent inside the loop (`403` at line 491), if any.  Note the loop does not
stop at the first purchase holding the claim: later purchases are still
checked and incremented, and an at-limit purchase sends `403` while
under-limit purchases before and after it are still updated. -/
def useClaimScan (key name : String) :
    List Purchase → List Purchase × Bool × Option UseClaimResp
  | [] => ([], false, none)
  | p :: ps =>
      let m := (jsLookup p.claims key).getD []
      match jsLookup m name with
      | none =>
          let r := useClaimScan key name ps
          (p :: r.1, r.2.1, r.2.2)
      | some c =>
          if c.used + 1 > c.limit then
            let r := useClaimScan key name ps
            (p :: r.1, true, some .limitReached)
          else
            let p' := { p with
              claims := jsObjSet p.claims key (jsObjSet m name ⟨c.used + 1, c.limit⟩) }
            let r := useClaimScan key name ps
            (p' :: r.1, true, r.2.2)

/-- Body of `useClaim` after the id rewrite (lines 463–504).  The rewritten
patient id is never empty, so the 400 check effectively tests only
`claimName`.  After the loop, `404` is sent when no purchase held the
claim, `200` otherwise — but a `403` sent inside the loop wins. -/
def useClaimCore (pid name : String) (d : MonthDate) (s : Store) :
    Store × UseClaimResp :=
  if name = "" then (s, .badRequest)
  else
    let plist := (jsLookup s.purchases pid).getD []
    let r := useClaimScan (claimsKey d) name plist
    ({ s with purchases := assocMod s.purchases pid (fun _ => r.1) },
      r.2.2.getD (if r.2.1 then .ok else .notFound))

/-- `useClaim` (lines 453–510): rewrite the id, then run the body. -/
def useClaim (raw name : String) (d : MonthDate) (s : Store) :
    Store × UseClaimResp :=
  useClaimCore (normalizeId raw) name d s

/-- Responses of `redeemPoints`. -/
inductive RedeemResp where
  | invalid
  | notFound
  | insufficient
  | ok
  deriving Repr, DecidableEq

/-- Body of `redeemPoints` after the id rewrite (lines 521–544).  The check
`!patientId || !pointsToRedeem || pointsToRedeem <= 0` reduces to
`amt ≤ 0` (the rewritten id is never empty, and `0` is falsy). -/
def redeemPointsCore (pid : String) (amt : Int) (s : Store) :
    Store × RedeemResp :=
  if amt ≤ 0 then (s, .invalid)
  else
    match jsLookup s.patientDocs pid with
    | none => (s, .notFound)
    | some pd =>
        let cur := pd.points.getD 0
        if cur < amt then (s, .insufficient)
        else
          ({ s with patientDocs := (assocMod s.patientDocs pid
              (fun pd' => { pd' with points := some (cur - amt) })) },
            .ok)

/-- `redeemPoints` (lines 512–550): rewrite the id, then run the body. -/
def redeemPoints (raw : String) (amt : Int) (s : Store) : Store × RedeemResp :=
  redeemPointsCore (normalizeId raw) amt s

/-- The parameters `/create-checkout-session` would pass to
`stripe.checkout.sessions.create` (lines 271–307). -/
structure SessionParams where
  customer : Option String
  price : String
  client_reference_id : String
  planId : String
  deriving Repr, DecidableEq

/-- Responses of `/create-checkout-session` up to the external Stripe
call. -/
inductive CheckoutEndpointResp where
  | missing
  | invalidPlan
  | patientNotFound
  | ok (params : SessionParams)
  deriving Repr, DecidableEq

/-- Body of `/create-checkout-session` after validation and the id rewrite
(lines 240–307): plan query by `stripe_product_id`, patient lookup by the
rewritten id, then a session whose `customer` is the patient's
`stripeCustomerId` when set. -/
def createCheckoutSessionCore (planId uid : String) (s : Store) :
    CheckoutEndpointResp :=
  match s.health_plans.find? (fun kp => kp.2.stripe_product_id = planId) with
  | none => .invalidPlan
  | some (docId, plan) =>
      match jsLookup s.patientDocs uid with
      | none => .patientNotFound
      | some pd =>
          let cid := match pd.stripeCustomerId with
            | some c => if c = "" then none else some c
            | none => none
          .ok ⟨cid, plan.stripe_price_id, uid, docId⟩

/-- `/create-checkout-session` (lines 225–314): presence checks on the raw
inputs (lines 228–233) come before the id rewrite at line 234. -/
def createCheckoutSession (planId userId : String) (s : Store) :
    CheckoutEndpointResp :=
  if planId = "" ∨ userId = "" then .missing
  else createCheckoutSessionCore planId (normalizeId userId) s

/-- Responses of `/create-customer-portal` up to the external Stripe
call. -/
inductive PortalResp where
  | missing
  | patientNotFound
  | noCustomer
  | ok (customer : String)
  deriving Repr, DecidableEq

/-- Body of `/create-customer-portal` after the id rewrite (lines 320–365):
the missing-field check runs on the already-rewritten id (never empty), so
only `planId` can trip it; then patient lookup, then the first purchase
with a matching `health_plan_id` supplies the Stripe customer id. -/
def createCustomerPortalCore (uid planId : String) (s : Store) : PortalResp :=
  if uid = "" ∨ planId = "" then .missing
  else
    match jsLookup s.patientDocs uid with
    | none => .patientNotFound
    | some _ =>
        let plist := (jsLookup s.purchases uid).getD []
        match plist.find? (fun p => p.health_plan_id = planId) with
        | none => .noCustomer
        | some p => if p.stripeCustomerId = "" then .noCustomer else .ok p.stripeCustomerId

/-- `/create-customer-portal` (lines 316–370): the id rewrite at line 319
precedes every check and lookup. -/
def createCustomerPortal (userId planId : String) (s : Store) : PortalResp :=
  createCustomerPortalCore (normalizeId userId) planId s

/-! ## Derived views of the `useClaim` loop -/

/-- The current-month claim record for `name` held by one purchase:
`(doc.data().claims || {})[claimsKey]?.[claimName]`. -/
def purchClaim (p : Purchase) (key name : String) : Option ClaimInfo :=
  jsLookup ((jsLookup p.claims key).getD []) name

/-- The effect of one `useClaim` loop iteration on one purchase document. -/
def purchStep (key name : String) (p : Purchase) : Purchase :=
  let m := (jsLookup p.claims key).getD []
  match jsLookup m name with
  | none => p
  | some c =>
      if c.used + 1 > c.limit then p
      else { p with
        claims := jsObjSet p.claims key (jsObjSet m name ⟨c.used + 1, c.limit⟩) }

/-- Whether one purchase holds the claim and is at its limit, which makes
the loop iteration send the 403 response. -/
def purchAtLimit (p : Purchase) (key name : String) : Bool :=
  match purchClaim p key name with
  | some c => c.limit < c.used + 1
  | none => false

/-- The claim invariant on one purchase document: every recorded month's
every item satisfies `used ≤ limit`. -/
def PurchaseInv (p : Purchase) : Prop :=
  ∀ km ∈ p.claims, ∀ e ∈ km.2, e.2.used ≤ e.2.limit

/-- The claim invariant over the whole store. -/
def StoreInv (s : Store) : Prop :=
  ∀ kps ∈ s.purchases, ∀ p ∈ kps.2, PurchaseInv p

/-- The claim record for `name` in the `i`-th purchase (enumeration order)
of patient `pid`. -/
def counterAt (s : Store) (pid : String) (i : Nat) (key name : String) :
    Option ClaimInfo :=
  ((jsLookup s.purchases pid).getD [])[i]?.bind (fun p => purchClaim p key name)

/-- `n` successive `useClaim` calls with the same arguments; the second
component counts the calls answered 200. -/
def runUseClaims (raw name : String) (d : MonthDate) (s : Store) :
    Nat → Store × Nat
  | 0 => (s, 0)
  | n + 1 =>
      let r := useClaim raw name d s
      let rest := runUseClaims raw name d r.1 n
      (rest.1, (if r.2 = .ok then 1 else 0) + rest.2)

/-- A sequence of `redeemPoints` calls; the second component sums the
amounts of the calls answered 200. -/
def runRedeems (raw : String) (s : Store) : List Int → Store × Int
  | [] => (s, 0)
  | a :: rest =>
      let r := redeemPoints raw a s
      let t := runRedeems raw r.1 rest
      (t.1, (if r.2 = .ok then a else 0) + t.2)

/-! ## Association-list lemmas -/

theorem jsLookup_cons {α : Type} (k' : String) (v' : α) (t : List (String × α))
    (k : String) :
    jsLookup ((k', v') :: t) k = if k' = k then some v' else jsLookup t k := by
  by_cases h : k' = k <;> simp [jsLookup, List.find?_cons, h]

theorem jsLookup_jsObjSet_self {α : Type} (l : List (String × α)) (k : String)
    (v : α) : jsLookup (jsObjSet l k v) k = some v := by
  induction l with
  | nil => simp [jsObjSet, jsLookup_cons]
  | cons h t ih =>
      obtain ⟨k', v'⟩ := h
      by_cases hk : k' = k <;> simp [jsObjSet, hk, jsLookup_cons, ih]

theorem jsLookup_jsObjSet_ne {α : Type} (l : List (String × α)) (k k' : String)
    (v : α) (h : k' ≠ k) : jsLookup (jsObjSet l k v) k' = jsLookup l k' := by
  induction l with
  | nil => simp [jsObjSet, jsLookup_cons, Ne.symm h]
  | cons hd t ih =>
      obtain ⟨k₀, v₀⟩ := hd
      by_cases hk : k₀ = k
      · subst hk
        simp [jsObjSet, jsLookup_cons, Ne.symm h]
      · simp [jsObjSet, hk, jsLookup_cons, ih]

theorem mem_jsObjSet {α : Type} (l : List (String × α)) (k : String) (v : α)
    (x : String × α) (hx : x ∈ jsObjSet l k v) : x ∈ l ∨ x = (k, v) := by
  induction l with
  | nil => simp [jsObjSet] at hx; simp [hx]
  | cons hd t ih =>
      obtain ⟨k₀, v₀⟩ := hd
      by_cases hk : k₀ = k
      · subst hk
        simp [jsObjSet] at hx
        rcases hx with h | h
        · right; simp [h]
        · left; simp [h]
      · simp [jsObjSet, hk] at hx
        rcases hx with h | h
        · left; simp [h]
        · rcases ih h with h' | h'
          · left; simp [h']
          · right; exact h'

theorem jsLookup_assocMod_self {α : Type} (l : List (String × α)) (k : String)
    (f : α → α) : jsLookup (assocMod l k f) k = (jsLookup l k).map f := by
  induction l with
  | nil => simp [assocMod, jsLookup]
  | cons hd t ih =>
      obtain ⟨k₀, v₀⟩ := hd
      by_cases hk : k₀ = k <;> simp [assocMod, hk, jsLookup_cons, ih]

theorem jsLookup_assocMod_ne {α : Type} (l : List (String × α)) (k k' : String)
    (f : α → α) (h : k' ≠ k) : jsLookup (assocMod l k f) k' = jsLookup l k' := by
  induction l with
  | nil => simp [assocMod]
  | cons hd t ih =>
      obtain ⟨k₀, v₀⟩ := hd
      by_cases hk : k₀ = k
      · subst hk
        simp [assocMod, jsLookup_cons, Ne.symm h]
      · simp [assocMod, hk, jsLookup_cons, ih]

theorem mem_assocMod {α : Type} (l : List (String × α)) (k : String) (f : α → α)
    (x : String × α) (hx : x ∈ assocMod l k f) :
    x ∈ l ∨ ∃ v, (k, v) ∈ l ∧ x = (k, f v) := by
  induction l with
  | nil => simp [assocMod] at hx
  | cons hd t ih =>
      obtain ⟨k₀, v₀⟩ := hd
      by_cases hk : k₀ = k
      · subst hk
        simp [assocMod] at hx
        rcases hx with h | h
        · right; exact ⟨v₀, by simp, by simp [h]⟩
        · left; simp [h]
      · simp [assocMod, hk] at hx
        rcases hx with h | h
        · left; simp [h]
        · rcases ih h with h' | ⟨v, hv, hxv⟩
          · left; simp [h']
          · right; exact ⟨v, by simp [hv], hxv⟩

theorem jsLookup_mem {α : Type} (l : List (String × α)) (k : String) (v : α)
    (h : jsLookup l k = some v) : (k, v) ∈ l := by
  induction l with
  | nil => simp [jsLookup] at h
  | cons hd t ih =>
      obtain ⟨k₀, v₀⟩ := hd
      rw [jsLookup_cons] at h
      by_cases hk : k₀ = k
      · simp [hk] at h
        simp [hk, h]
      · simp [hk] at h
        simp [ih h]


/-! ## Decomposition of the `useClaim` loop -/

theorem purchStep_of_none (key name : String) (p : Purchase)
    (h : purchClaim p key name = none) : purchStep key name p = p := by
  simp only [purchClaim] at h
  simp only [purchStep, h]

theorem purchStep_of_atLimit (key name : String) (p : Purchase) (c : ClaimInfo)
    (h : purchClaim p key name = some c) (hc : c.limit < c.used + 1) :
    purchStep key name p = p := by
  simp only [purchClaim] at h
  simp only [purchStep, h]
  simp [hc]

theorem purchStep_of_under (key name : String) (p : Purchase) (c : ClaimInfo)
    (h : purchClaim p key name = some c) (hc : ¬ c.limit < c.used + 1) :
    purchStep key name p = { p with
      claims := jsObjSet p.claims key
        (jsObjSet ((jsLookup p.claims key).getD []) name ⟨c.used + 1, c.limit⟩) } := by
  simp only [purchClaim] at h
  simp only [purchStep, h]
  simp [hc]

theorem useClaimScan_cons (key name : String) (p : Purchase) (ps : List Purchase) :
    useClaimScan key name (p :: ps) =
      match purchClaim p key name with
      | none => (p :: (useClaimScan key name ps).1,
          (useClaimScan key name ps).2.1, (useClaimScan key name ps).2.2)
      | some c =>
          if c.limit < c.used + 1 then
            (p :: (useClaimScan key name ps).1, true, some .limitReached)
          else
            (purchStep key name p :: (useClaimScan key name ps).1,
              true, (useClaimScan key name ps).2.2) := by
  simp only [useClaimScan]
  cases h : jsLookup ((jsLookup p.claims key).getD []) name with
  | none =>
      have h' : purchClaim p key name = none := h
      simp [h']
  | some c =>
      have h' : purchClaim p key name = some c := h
      by_cases hc : c.used + 1 > c.limit
      · have hc' : c.limit < c.used + 1 := hc
        simp [h', hc, hc']
      · have hc' : ¬ c.limit < c.used + 1 := hc
        simp [h', hc, hc', purchStep_of_under key name p c h' hc']

theorem useClaimScan_fst (key name : String) (l : List Purchase) :
    (useClaimScan key name l).1 = l.map (purchStep key name) := by
  induction l with
  | nil => rfl
  | cons p ps ih =>
      rw [useClaimScan_cons]
      cases h : purchClaim p key name with
      | none => simp [ih, purchStep_of_none key name p h]
      | some c =>
          by_cases hc : c.limit < c.used + 1
          · simp [hc, ih, purchStep_of_atLimit key name p c h hc]
          · simp [hc, ih]

theorem useClaimScan_found (key name : String) (l : List Purchase) :
    (useClaimScan key name l).2.1
      = l.any (fun p => (purchClaim p key name).isSome) := by
  induction l with
  | nil => rfl
  | cons p ps ih =>
      rw [useClaimScan_cons]
      cases h : purchClaim p key name with
      | none => simp [h, ih]
      | some c =>
          by_cases hc : c.limit < c.used + 1 <;> simp [h, hc, ih]

theorem useClaimScan_resp (key name : String) (l : List Purchase) :
    (useClaimScan key name l).2.2 =
      if l.any (fun p => purchAtLimit p key name) then some .limitReached
      else none := by
  induction l with
  | nil => rfl
  | cons p ps ih =>
      rw [useClaimScan_cons]
      cases h : purchClaim p key name with
      | none => simp [purchAtLimit, h, ih]
      | some c =>
          by_cases hc : c.limit < c.used + 1 <;>
            simp [purchAtLimit, h, hc, ih]

theorem purchClaim_purchStep (key name : String) (p : Purchase) :
    purchClaim (purchStep key name p) key name =
      match purchClaim p key name with
      | none => none
      | some c => some (if c.limit < c.used + 1 then c else ⟨c.used + 1, c.limit⟩) := by
  cases h : purchClaim p key name with
  | none => simp [purchStep_of_none key name p h, h]
  | some c =>
      by_cases hc : c.limit < c.used + 1
      · simp [purchStep_of_atLimit key name p c h hc, h, hc]
      · rw [purchStep_of_under key name p c h hc]
        simp only [purchClaim, jsLookup_jsObjSet_self, Option.getD_some, hc, if_false]

theorem purchStep_inv (key name : String) (p : Purchase) (hp : PurchaseInv p) :
    PurchaseInv (purchStep key name p) := by
  cases h : purchClaim p key name with
  | none => rw [purchStep_of_none key name p h]; exact hp
  | some c =>
      by_cases hc : c.limit < c.used + 1
      · rw [purchStep_of_atLimit key name p c h hc]; exact hp
      · rw [purchStep_of_under key name p c h hc]
        intro km hkm e he
        rcases mem_jsObjSet _ _ _ _ hkm with hin | heq
        · exact hp km hin e he
        · subst heq
          simp only at he
          rcases mem_jsObjSet _ _ _ _ he with hin' | heq'
          · cases hm : jsLookup p.claims key with
            | none => simp [hm] at hin'
            | some m₀ =>
                rw [hm] at hin'
                simp only [Option.getD_some] at hin'
                exact hp (key, m₀) (jsLookup_mem _ _ _ hm) e hin'
          · subst heq'
            simpa using Nat.not_lt.mp hc

/-! ## Single-call and sequence lemmas for `useClaim` -/

theorem useClaimCore_empty_name (pid : String) (d : MonthDate) (s : Store) :
    useClaimCore pid "" d s = (s, .badRequest) := by
  simp [useClaimCore]

theorem useClaimCore_inv (pid name : String) (d : MonthDate) (s : Store)
    (h : StoreInv s) : StoreInv (useClaimCore pid name d s).1 := by
  by_cases hn : name = ""
  · subst hn; rw [useClaimCore_empty_name]; exact h
  · simp only [useClaimCore, hn, if_false]
    intro kps hkps p hp
    rcases mem_assocMod _ _ _ _ hkps with hin | ⟨v, _, hkv⟩
    · exact h kps hin p hp
    · subst hkv
      simp only at hp
      rw [useClaimScan_fst] at hp
      rcases List.mem_map.mp hp with ⟨p₀, hp₀, rfl⟩
      cases hl : jsLookup s.purchases pid with
      | none => rw [hl] at hp₀; simp at hp₀
      | some l₀ =>
          rw [hl] at hp₀
          simp only [Option.getD_some] at hp₀
          exact purchStep_inv _ _ _ (h (pid, l₀) (jsLookup_mem _ _ _ hl) p₀ hp₀)

theorem useClaimCore_counterAt (pid name : String) (d : MonthDate) (s : Store)
    (i u L : Nat) (hn : name ≠ "")
    (h : counterAt s pid i (claimsKey d) name = some ⟨u, L⟩) :
    counterAt (useClaimCore pid name d s).1 pid i (claimsKey d) name
      = some (if L < u + 1 then ⟨u, L⟩ else ⟨u + 1, L⟩) ∧
    ((useClaimCore pid name d s).2 = .ok → u < L) := by
  cases hl : jsLookup s.purchases pid with
  | none => simp [counterAt, hl] at h
  | some plist =>
      cases hg : plist[i]? with
      | none => simp [counterAt, hl, hg] at h
      | some p =>
          have hpc : purchClaim p (claimsKey d) name = some ⟨u, L⟩ := by
            simpa [counterAt, hl, hg] using h
          constructor
          · simp only [useClaimCore, hn, if_false, counterAt,
              jsLookup_assocMod_self, hl, Option.map_some', Option.getD_some]
            rw [useClaimScan_fst, List.getElem?_map, hg]
            simp only [Option.map_some', Option.some_bind]
            rw [purchClaim_purchStep, hpc]
          · intro hok
            simp only [useClaimCore, hn, if_false, hl, Option.getD_some] at hok
            rw [useClaimScan_resp] at hok
            by_cases ha : plist.any (fun q => purchAtLimit q (claimsKey d) name)
            · rw [if_pos ha] at hok
              simp at hok
            · have hall := List.any_eq_false.mp (Bool.eq_false_iff.mpr ha)
              have hfalse := hall p (List.getElem?_mem hg)
              simp only [purchAtLimit, hpc, decide_eq_true_eq] at hfalse
              omega

theorem useClaim_eq (raw name : String) (d : MonthDate) (s : Store) :
    useClaim raw name d s = useClaimCore (normalizeId raw) name d s := rfl

theorem runUseClaims_inv (raw name : String) (d : MonthDate) :
    ∀ (n : Nat) (s : Store), StoreInv s → StoreInv (runUseClaims raw name d s n).1 := by
  intro n
  induction n with
  | zero => intro s h; exact h
  | succ n ih =>
      intro s h
      simp only [runUseClaims]
      exact ih _ (useClaimCore_inv _ _ _ _ h)

theorem runUseClaims_count (raw name : String) (d : MonthDate) :
    ∀ (n : Nat) (s : Store) (i u L : Nat),
      counterAt s (normalizeId raw) i (claimsKey d) name = some ⟨u, L⟩ →
      (runUseClaims raw name d s n).2 ≤ L - u := by
  intro n
  induction n with
  | zero => intro s i u L _; simp [runUseClaims]
  | succ n ih =>
      intro s i u L h
      by_cases hn : name = ""
      · subst hn
        simp only [runUseClaims, useClaim_eq, useClaimCore_empty_name]
        have := ih s i u L h
        simpa using this
      · obtain ⟨hcnt, hok⟩ := useClaimCore_counterAt (normalizeId raw) name d s i u L hn h
        simp only [runUseClaims, useClaim_eq]
        by_cases hr : (useClaimCore (normalizeId raw) name d s).2 = .ok
        · have hu : u < L := hok hr
          have hif : (if L < u + 1 then (⟨u, L⟩ : ClaimInfo) else ⟨u + 1, L⟩)
              = ⟨u + 1, L⟩ := by
            have : ¬ L < u + 1 := by omega
            simp [this]
          rw [hif] at hcnt
          have hrest := ih _ i (u + 1) L hcnt
          simp only [hr, if_true]
          omega
        · simp only [hr, if_false]
          by_cases hL : L < u + 1
          · rw [if_pos hL] at hcnt
            have hrest := ih _ i u L hcnt
            simpa using hrest
          · rw [if_neg hL] at hcnt
            have hrest := ih _ i (u + 1) L hcnt
            have : (runUseClaims raw name d (useClaimCore (normalizeId raw) name d s).1 n).2
                ≤ L - (u + 1) := hrest
            omega

/-! ## Lemmas about the claim map built at purchase time -/

theorem mem_initMonthMap_aux (items : List ClaimableItem) :
    ∀ (acc : List (String × ClaimInfo)) (x : String × ClaimInfo),
      x ∈ items.foldl (fun m it => jsObjSet m it.name ⟨0, it.limit⟩) acc →
      x ∈ acc ∨ ∃ it ∈ items, x = (it.name, ⟨0, it.limit⟩) := by
  induction items with
  | nil => intro acc x hx; left; simpa using hx
  | cons j rest ih =>
      intro acc x hx
      simp only [List.foldl_cons] at hx
      rcases ih _ x hx with hin | ⟨it, hit, rfl⟩
      · rcases mem_jsObjSet _ _ _ _ hin with h' | h'
        · left; exact h'
        · right; exact ⟨j, by simp, h'⟩
      · right; exact ⟨it, by simp [hit], rfl⟩

theorem mem_initMonthMap (items : List ClaimableItem) (x : String × ClaimInfo)
    (hx : x ∈ initMonthMap items) :
    x.2.used = 0 ∧ ∃ it ∈ items, x.1 = it.name ∧ x.2.limit = it.limit := by
  rcases mem_initMonthMap_aux items [] x hx with h | ⟨it, hit, rfl⟩
  · simp at h
  · exact ⟨rfl, it, hit, rfl, rfl⟩

theorem jsLookup_foldl_of_not_mem (items : List ClaimableItem) (k : String)
    (hk : ∀ it ∈ items, it.name ≠ k) :
    ∀ acc : List (String × ClaimInfo),
      jsLookup (items.foldl (fun m it => jsObjSet m it.name (ClaimInfo.mk 0 it.limit)) acc) k
        = jsLookup acc k := by
  induction items with
  | nil => intro acc; rfl
  | cons j rest ih =>
      intro acc
      simp only [List.foldl_cons]
      rw [ih (fun it hit => hk it (by simp [hit]))]
      exact jsLookup_jsObjSet_ne _ _ _ _ (Ne.symm (hk j (by simp)))

theorem jsLookup_initMonthMap_aux (items : List ClaimableItem)
    (hnd : (items.map (·.name)).Nodup) (it : ClaimableItem) (hit : it ∈ items) :
    ∀ acc : List (String × ClaimInfo),
      jsLookup (items.foldl (fun m j => jsObjSet m j.name (ClaimInfo.mk 0 j.limit)) acc) it.name
        = some (ClaimInfo.mk 0 it.limit) := by
  induction items with
  | nil => simp at hit
  | cons j rest ih =>
      intro acc
      simp only [List.foldl_cons]
      rcases List.mem_cons.mp hit with rfl | hmem
      · have hnotin : ∀ q ∈ rest, q.name ≠ it.name := by
          intro q hq
          have hni : it.name ∉ rest.map (·.name) := by
            simpa using (List.nodup_cons.mp hnd).1
          intro hEq
          exact hni (hEq ▸ List.mem_map_of_mem _ hq)
        rw [jsLookup_foldl_of_not_mem rest it.name hnotin]
        exact jsLookup_jsObjSet_self _ _ _
      · exact ih (List.nodup_cons.mp hnd).2 hmem _

theorem jsLookup_initMonthMap (items : List ClaimableItem)
    (hnd : (items.map (·.name)).Nodup) (it : ClaimableItem) (hit : it ∈ items) :
    jsLookup (initMonthMap items) it.name = some (ClaimInfo.mk 0 it.limit) :=
  jsLookup_initMonthMap_aux items hnd it hit []

/-! ## Checkout preserves the claim invariant -/

theorem handleCheckout_inv (sess : CheckoutSession) (d : MonthDate)
    (s s₁ : Store) (h : StoreInv s)
    (hok : handleCheckoutSessionCompleted sess d s = .ok s₁) : StoreInv s₁ := by
  simp only [handleCheckoutSessionCompleted] at hok
  cases hpl : jsLookup s.health_plans sess.planId with
  | none => rw [hpl] at hok; simp at hok
  | some plan =>
      rw [hpl] at hok
      simp only [Except.ok.injEq] at hok
      subst hok
      intro kps hkps p hp
      rcases mem_jsObjSet _ _ _ _ hkps with hin | heq
      · exact h kps hin p hp
      · subst heq
        simp only at hp
        rcases List.mem_cons.mp hp with rfl | hold
        · intro km hkm e he
          simp only [newPurchase, List.mem_singleton] at hkm
          subst hkm
          simp only at he
          have := (mem_initMonthMap _ _ he).1
          omega
        · cases hl : jsLookup s.purchases sess.client_reference_id with
          | none => rw [hl] at hold; simp at hold
          | some l₀ =>
              rw [hl] at hold
              simp only [Option.getD_some] at hold
              exact h (sess.client_reference_id, l₀) (jsLookup_mem _ _ _ hl) p hold

/-! ## Concrete fixtures used by the witnesses and counterexamples -/

/-- January 2025 (`getMonth() = 0`). -/
def dW : MonthDate := ⟨2025, 0⟩

/-- A plan with one claimable item `dental`, limit 2. -/
def planW : Plan := ⟨"Basic", "prod_basic", "price_basic", [⟨"dental", 2⟩]⟩

/-- A patient document with 50 points and a Stripe customer id. -/
def pdW : PatientData := ⟨some 50, some "cus_1", none⟩

/-- A purchase of `planW` made in January 2025, nothing used yet. -/
def purchaseW : Purchase :=
  ⟨"Basic", "plan1", "cus_1", "active", [("claims_2025-01", [("dental", ⟨0, 2⟩)])]⟩

/-- A store with one plan, one patient (`"u1\n"`, as stored by the system)
and one purchase. -/
def sW : Store := ⟨[("plan1", planW)], [("u1\n", pdW)], [("u1\n", [purchaseW])]⟩

/-- C1. For every Purchase, every recorded month, and every claimable item,
the counter pair satisfies `used ≤ limit` after every operation:
checkout-completion initializes `used = 0` for each item (first conjunct:
every entry of the freshly created purchase's month map has `used = 0`;
second conjunct: a completed checkout preserves the store invariant
`used ≤ limit`), and for any sequence of `useClaim` calls against one claim
name with limit `L`, at most `L` of them succeed (fourth conjunct: starting
from a counter `⟨u, L⟩`, at most `L - u` calls are answered 200), so `used`
never exceeds `limit` (third conjunct: the invariant is preserved by any
such sequence). -/
theorem claim_C1 (s : Store) (raw name : String) (d : MonthDate) (n : Nat) :
    (∀ (sess : CheckoutSession) (s₁ : Store) (hp : Purchase),
        handleCheckoutSessionCompleted sess d s = .ok s₁ →
        ((jsLookup s₁.purchases sess.client_reference_id).getD []).head? = some hp →
        ∀ x ∈ (jsLookup hp.claims (claimsKey d)).getD [], x.2.used = 0) ∧
    (∀ (sess : CheckoutSession) (s₁ : Store), StoreInv s →
        handleCheckoutSessionCompleted sess d s = .ok s₁ → StoreInv s₁) ∧
    (StoreInv s → StoreInv (runUseClaims raw name d s n).1) ∧
    (∀ i u L, counterAt s (normalizeId raw) i (claimsKey d) name = some ⟨u, L⟩ →
        (runUseClaims raw name d s n).2 ≤ L - u) := by
  refine ⟨?_, ?_, ?_, ?_⟩
  · intro sess s₁ hp hok hhead x hx
    simp only [handleCheckoutSessionCompleted] at hok
    cases hpl : jsLookup s.health_plans sess.planId with
    | none => rw [hpl] at hok; simp at hok
    | some plan =>
        rw [hpl] at hok
        simp only [Except.ok.injEq] at hok
        subst hok
        simp only [jsLookup_jsObjSet_self, Option.getD_some, List.head?_cons,
          Option.some.injEq] at hhead
        subst hhead
        simp only [newPurchase, jsLookup_cons, if_pos rfl, Option.getD_some] at hx
        exact (mem_initMonthMap _ _ hx).1
  · intro sess s₁ h hok
    exact handleCheckout_inv sess d s s₁ h hok
  · intro h
    exact runUseClaims_inv raw name d n s h
  · intro i u L h
    exact runUseClaims_count raw name d n s i u L h

/-- C1 witness: in the concrete store `sW`, the `dental` counter of the
first purchase of patient `"u1\n"` is `⟨0, 2⟩`, and five `useClaim` calls
produce at most `2` successes. -/
theorem claim_C1_witness :
    counterAt sW (normalizeId "u1") 0 (claimsKey dW) "dental" = some ⟨0, 2⟩ ∧
    (runUseClaims "u1" "dental" dW sW 5).2 ≤ 2 - 0 :=
  ⟨by decide, (claim_C1 sW "u1" "dental" dW 5).2.2.2 0 0 2 (by decide)⟩

/-- A second purchase of the same plan by the same patient, same item. -/
def purchaseW2 : Purchase :=
  ⟨"Basic", "plan1", "cus_2", "active", [("claims_2025-01", [("dental", ⟨0, 2⟩)])]⟩

/-- A store in which patient `"u1\n"` owns two purchases whose
current-month maps both contain `dental`. -/
def sC2 : Store := ⟨[("plan1", planW)], [("u1\n", pdW)], [("u1\n", [purchaseW, purchaseW2])]⟩

/-- C2 (refuted as stated): a successful `useClaim` call does **not**
mutate only the first matching purchase.  In `sC2` both purchases hold
`dental` at `⟨0, 2⟩`; one `useClaim("u1", "dental")` call answers 200 and
increments the counter in **both** purchases — the `forEach` loop at
lines 481–499 never stops at the first match, so two fields change. -/
theorem claim_C2 :
    (useClaim "u1" "dental" dW sC2).2 = .ok ∧
    counterAt (useClaim "u1" "dental" dW sC2).1 "u1\n" 0 (claimsKey dW) "dental"
      = some ⟨1, 2⟩ ∧
    counterAt (useClaim "u1" "dental" dW sC2).1 "u1\n" 1 (claimsKey dW) "dental"
      = some ⟨1, 2⟩ := by
  decide

/-- A purchase whose `dental` counter is already at its limit. -/
def purchaseAtLimit : Purchase :=
  ⟨"Basic", "plan1", "cus_2", "active", [("claims_2025-01", [("dental", ⟨2, 2⟩)])]⟩

/-- A store in which the first matching purchase is under its limit and a
later one is at its limit. -/
def sC7 : Store :=
  ⟨[("plan1", planW)], [("u1\n", pdW)], [("u1\n", [purchaseW, purchaseAtLimit])]⟩

/-- C7 (refuted as stated): a `LimitExceeded` failure is **not**
mutation-free, and is not characterised by the first found claim being at
its limit.  In `sC7` the first purchase holding `dental` is at `⟨0, 2⟩`
(so `used + 1 ≤ limit` for the found claim), yet the call answers 403 —
because the loop also visits the later at-limit purchase — and the first
purchase's counter is still incremented, so the store changes on this
failure. -/
theorem claim_C7 :
    counterAt sC7 "u1\n" 0 (claimsKey dW) "dental" = some ⟨0, 2⟩ ∧
    (useClaim "u1" "dental" dW sC7).2 = .limitReached ∧
    counterAt (useClaim "u1" "dental" dW sC7).1 "u1\n" 0 (claimsKey dW) "dental"
      = some ⟨1, 2⟩ ∧
    (useClaim "u1" "dental" dW sC7).1 ≠ sC7 := by
  decide

/-! ## `redeemPoints` lemmas -/

theorem redeemPoints_eq (raw : String) (amt : Int) (s : Store) :
    redeemPoints raw amt s = redeemPointsCore (normalizeId raw) amt s := rfl

theorem runRedeems_spec (raw : String) :
    ∀ (amts : List Int) (s : Store) (pd : PatientData),
      jsLookup s.patientDocs (normalizeId raw) = some pd →
      ∃ pd', jsLookup (runRedeems raw s amts).1.patientDocs (normalizeId raw) = some pd' ∧
        pd'.points.getD 0 = pd.points.getD 0 - (runRedeems raw s amts).2 ∧
        (0 ≤ pd.points.getD 0 → 0 ≤ pd'.points.getD 0) := by
  intro amts
  induction amts with
  | nil =>
      intro s pd hpd
      exact ⟨pd, hpd, by simp [runRedeems], fun h => h⟩
  | cons a rest ih =>
      intro s pd hpd
      simp only [runRedeems, redeemPoints_eq]
      by_cases ha : a ≤ 0
      · have hstep : redeemPointsCore (normalizeId raw) a s = (s, .invalid) := by
          simp [redeemPointsCore, ha]
        obtain ⟨pd', h1, h2, h3⟩ := ih s pd hpd
        refine ⟨pd', by simpa [hstep] using h1, ?_, h3⟩
        simp [hstep, h2]
      · by_cases hcur : pd.points.getD 0 < a
        · have hstep : redeemPointsCore (normalizeId raw) a s = (s, .insufficient) := by
            simp [redeemPointsCore, ha, hpd, hcur]
          obtain ⟨pd', h1, h2, h3⟩ := ih s pd hpd
          refine ⟨pd', by simpa [hstep] using h1, ?_, h3⟩
          simp [hstep, h2]
        · have hstep : redeemPointsCore (normalizeId raw) a s =
              ({ s with patientDocs := (assocMod s.patientDocs (normalizeId raw)
                  (fun pd' => { pd' with points := some (pd.points.getD 0 - a) })) },
                .ok) := by
            simp [redeemPointsCore, ha, hpd, hcur]
          have hpd₁ : jsLookup (redeemPointsCore (normalizeId raw) a s).1.patientDocs
              (normalizeId raw)
              = some { pd with points := some (pd.points.getD 0 - a) } := by
            rw [hstep]
            simp [jsLookup_assocMod_self, hpd]
          obtain ⟨pd', h1, h2, h3⟩ := ih _ _ hpd₁
          refine ⟨pd', h1, ?_, ?_⟩
          · simp only [Option.getD_some] at h2
            rw [h2]
            simp only [hstep]
            simp
            omega
          · intro _
            apply h3
            simp only [Option.getD_some]
            omega

/-- C3. For every `redeemPoints(subscriberId, amount)` call on an existing
subscriber: if `currentPoints < amount` the call fails with
`InsufficientBalance` and the points balance is unchanged (first conjunct:
the whole store is returned untouched); if `currentPoints ≥ amount` the
call succeeds and the new balance equals `currentPoints − amount` (second
conjunct); and for any sequence of redemptions the final balance equals
the initial balance minus the sum of the successful amounts and never
becomes negative (third conjunct). -/
theorem claim_C3 (s : Store) (raw : String) (pd : PatientData) (amt : Int)
    (amts : List Int)
    (hpd : jsLookup s.patientDocs (normalizeId raw) = some pd)
    (h0 : 0 ≤ pd.points.getD 0) :
    (pd.points.getD 0 < amt → redeemPoints raw amt s = (s, .insufficient)) ∧
    (0 < amt → amt ≤ pd.points.getD 0 →
      (redeemPoints raw amt s).2 = .ok ∧
      jsLookup (redeemPoints raw amt s).1.patientDocs (normalizeId raw)
        = some { pd with points := some (pd.points.getD 0 - amt) }) ∧
    (∃ pd', jsLookup (runRedeems raw s amts).1.patientDocs (normalizeId raw) = some pd' ∧
      pd'.points.getD 0 = pd.points.getD 0 - (runRedeems raw s amts).2 ∧
      0 ≤ pd'.points.getD 0) := by
  refine ⟨?_, ?_, ?_⟩
  · intro hlt
    have ha : ¬ amt ≤ 0 := by omega
    simp [redeemPoints_eq, redeemPointsCore, ha, hpd, hlt]
  · intro hpos hle
    have ha : ¬ amt ≤ 0 := by omega
    have hcur : ¬ pd.points.getD 0 < amt := by omega
    constructor
    · simp [redeemPoints_eq, redeemPointsCore, ha, hpd, hcur]
    · simp [redeemPoints_eq, redeemPointsCore, ha, hpd, hcur,
        jsLookup_assocMod_self]
  · obtain ⟨pd', h1, h2, h3⟩ := runRedeems_spec raw amts s pd hpd
    exact ⟨pd', h1, h2, h3 h0⟩

/-- C3 witness: patient `"u1\n"` in `sW` holds 50 points; a request for
60 points is refused with the store untouched, and the two-redemption
sequence `[30, 30]` leaves a balance equal to `50` minus the sum of the
successful amounts, never negative. -/
theorem claim_C3_witness :
    jsLookup sW.patientDocs (normalizeId "u1") = some pdW ∧
    ((pdW.points.getD 0 < 60 → redeemPoints "u1" 60 sW = (sW, .insufficient)) ∧
      (0 < (60 : Int) → (60 : Int) ≤ pdW.points.getD 0 →
        (redeemPoints "u1" 60 sW).2 = .ok ∧
        jsLookup (redeemPoints "u1" 60 sW).1.patientDocs (normalizeId "u1")
          = some { pdW with points := some (pdW.points.getD 0 - 60) }) ∧
      (∃ pd', jsLookup (runRedeems "u1" sW [30, 30]).1.patientDocs (normalizeId "u1")
          = some pd' ∧
        pd'.points.getD 0 = pdW.points.getD 0 - (runRedeems "u1" sW [30, 30]).2 ∧
        0 ≤ pd'.points.getD 0)) :=
  ⟨by decide, claim_C3 sW "u1" pdW 60 [30, 30] (by decide) (by decide)⟩

/-- C4. For every valid checkout-completion event (plan and subscriber
both exist), exactly one new Purchase is prepended to the subscriber's
enumeration (count grows by one and the remainder is the old list), with
status `active`, the plan's id and denormalized name, the external
customer reference, and a claim map under the current month's key
containing, for every claimable item of the Plan, an entry with
`used = 0` and `limit` copied verbatim from the Plan; no other key of the
store changes. -/
theorem claim_C4 (s : Store) (sess : CheckoutSession) (d : MonthDate)
    (plan : Plan) (pd : PatientData)
    (hplan : jsLookup s.health_plans sess.planId = some plan)
    (_hpat : jsLookup s.patientDocs sess.client_reference_id = some pd)
    (hnd : (plan.claimable_items.map (·.name)).Nodup) :
    ∃ s₁, handleCheckoutSessionCompleted sess d s = .ok s₁ ∧
      jsLookup s₁.purchases sess.client_reference_id
        = some (newPurchase sess plan d
            :: (jsLookup s.purchases sess.client_reference_id).getD []) ∧
      (newPurchase sess plan d).subscription_status = "active" ∧
      (newPurchase sess plan d).health_plan_id = sess.planId ∧
      (newPurchase sess plan d).health_plan_name = plan.name ∧
      (newPurchase sess plan d).stripeCustomerId = sess.customer ∧
      (newPurchase sess plan d).claims
        = [(claimsKey d, initMonthMap plan.claimable_items)] ∧
      (∀ it ∈ plan.claimable_items,
        jsLookup (initMonthMap plan.claimable_items) it.name
          = some (ClaimInfo.mk 0 it.limit)) ∧
      (∀ x ∈ initMonthMap plan.claimable_items,
        x.2.used = 0 ∧ ∃ it ∈ plan.claimable_items,
          x.1 = it.name ∧ x.2.limit = it.limit) ∧
      s₁.health_plans = s.health_plans ∧
      s₁.patientDocs = s.patientDocs ∧
      (∀ k, k ≠ sess.client_reference_id →
        jsLookup s₁.purchases k = jsLookup s.purchases k) := by
  refine ⟨{ s with purchases := (jsObjSet s.purchases sess.client_reference_id
      (newPurchase sess plan d
        :: (jsLookup s.purchases sess.client_reference_id).getD [])) }, ?_,
    jsLookup_jsObjSet_self _ _ _, rfl, rfl, rfl, rfl, rfl,
    fun it hit => jsLookup_initMonthMap plan.claimable_items hnd it hit,
    fun x hx => mem_initMonthMap plan.claimable_items x hx,
    rfl, rfl,
    fun k hk => jsLookup_jsObjSet_ne _ _ _ _ hk⟩
  simp [handleCheckoutSessionCompleted, hplan]

/-- Session fixture matching patient `"u1\n"` and plan `plan1`. -/
def sessW : CheckoutSession := ⟨"u1\n", "plan1", "cus_1"⟩

/-- C4 witness: in `sW`, plan `plan1` and patient `"u1\n"` both exist,
the item names of `planW` are distinct, so the checkout handler appends
exactly one purchase initialized as the claim states. -/
theorem claim_C4_witness :
    jsLookup sW.health_plans sessW.planId = some planW ∧
    jsLookup sW.patientDocs sessW.client_reference_id = some pdW ∧
    (planW.claimable_items.map (·.name)).Nodup ∧
    (∃ s₁, handleCheckoutSessionCompleted sessW dW sW = .ok s₁ ∧
      jsLookup s₁.purchases sessW.client_reference_id
        = some (newPurchase sessW planW dW
            :: (jsLookup sW.purchases sessW.client_reference_id).getD []) ∧
      (newPurchase sessW planW dW).subscription_status = "active" ∧
      (newPurchase sessW planW dW).health_plan_id = sessW.planId ∧
      (newPurchase sessW planW dW).health_plan_name = planW.name ∧
      (newPurchase sessW planW dW).stripeCustomerId = sessW.customer ∧
      (newPurchase sessW planW dW).claims
        = [(claimsKey dW, initMonthMap planW.claimable_items)] ∧
      (∀ it ∈ planW.claimable_items,
        jsLookup (initMonthMap planW.claimable_items) it.name
          = some (ClaimInfo.mk 0 it.limit)) ∧
      (∀ x ∈ initMonthMap planW.claimable_items,
        x.2.used = 0 ∧ ∃ it ∈ planW.claimable_items,
          x.1 = it.name ∧ x.2.limit = it.limit) ∧
      s₁.health_plans = sW.health_plans ∧
      s₁.patientDocs = sW.patientDocs ∧
      (∀ k, k ≠ sessW.client_reference_id →
        jsLookup s₁.purchases k = jsLookup sW.purchases k)) :=
  ⟨by decide, by decide, by decide,
    claim_C4 sW sessW dW planW pdW (by decide) (by decide) (by decide)⟩

/-- A checkout event naming a plan id absent from the catalog. -/
def sessBadPlan : CheckoutSession := ⟨"u1\n", "no_such_plan", "cus_9"⟩

/-- A checkout event naming a user id with no patient document. -/
def sessNoPat : CheckoutSession := ⟨"ghost", "plan1", "cus_9"⟩

/-- C5 (refuted as stated): after signature verification the webhook does
**not** always answer `200 {received: true}`, and a handled
checkout-completion with a missing Plan or Subscriber is neither swallowed
nor mutation-free.  First conjunct: a missing plan makes
`handleCheckoutSessionCompleted` dereference `undefined`
(`planData.claimable_items`), the `TypeError` escapes the dispatch and the
acknowledgement at line 58 is never sent.  Remaining conjuncts: a missing
subscriber is acknowledged, but a purchase document is still created under
the missing patient's subcollection — a state mutation. -/
theorem claim_C5 :
    stripeWebhook true (.checkoutCompleted sessBadPlan) dW sW = .error .typeError ∧
    jsLookup sW.patientDocs "ghost" = none ∧
    stripeWebhook true (.checkoutCompleted sessNoPat) dW sW =
      .ok ({ sW with purchases :=
          [("u1\n", [purchaseW]), ("ghost", [newPurchase sessNoPat planW dW])] },
        .received) :=
  ⟨rfl, by decide, rfl⟩

/-- The store produced from `sW` by a cancel-at-period-end subscription
update for customer `cus_1`: the **patient** document gains
`subscription_status = "inactive"`, the purchase is untouched. -/
def sC6' : Store :=
  ⟨[("plan1", planW)], [("u1\n", ⟨some 50, some "cus_1", some "inactive"⟩)],
    [("u1\n", [purchaseW])]⟩

/-- C6 counterexample: on a `cancel_at_period_end = true` update whose
`customer` matches the purchase `purchaseW`, the handler does **not** set
that purchase's `subscription_status` to `"inactive"` — the purchase list
is unchanged and still reads `"active"`; instead the write lands on the
patient document (`purchaseDoc.ref.parent.parent`, lines 158–164). -/
theorem claim_C6_counterexample :
    handleSubscriptionUpdated ⟨some "u1\n", "cus_1", true⟩ sW = .ok sC6' ∧
    sC6'.purchases = sW.purchases ∧
    ((jsLookup sC6'.purchases "u1\n").getD []).map (·.subscription_status)
      = ["active"] ∧
    jsLookup sC6'.patientDocs "u1\n"
      = some ⟨some 50, some "cus_1", some "inactive"⟩ :=
  ⟨rfl, rfl, by decide, by decide⟩

/-- C6 as amended: for every subscription-update event carrying a
`client_reference_id`, when that subscriber's patient document exists the
handler looks for the first of the subscriber's purchases whose
`stripeCustomerId` matches the event's customer; when none matches the
event is a no-op, and when one matches the handler sets the
**subscriber's patient document** field `subscription_status` to
`"inactive"` when `cancel_at_period_end` is true and `"active"` otherwise,
leaving every purchase, the plan catalog, and every other patient
document unchanged. -/
theorem claim_C6 (s : Store) (ev : SubscriptionEvent) (uid : String)
    (pd : PatientData)
    (huid : ev.client_reference_id = some uid)
    (hpat : jsLookup s.patientDocs uid = some pd) :
    (((jsLookup s.purchases uid).getD []).find?
        (fun p => p.stripeCustomerId = ev.customer) = none →
      handleSubscriptionUpdated ev s = .ok s) ∧
    (∀ p₀, ((jsLookup s.purchases uid).getD []).find?
        (fun p => p.stripeCustomerId = ev.customer) = some p₀ →
      ∃ s₁, handleSubscriptionUpdated ev s = .ok s₁ ∧
        s₁.purchases = s.purchases ∧
        s₁.health_plans = s.health_plans ∧
        jsLookup s₁.patientDocs uid = some { pd with subscription_status := (some (if ev.cancel_at_period_end then "inactive" else "active")) } ∧
        (∀ k, k ≠ uid → jsLookup s₁.patientDocs k = jsLookup s.patientDocs k)) := by
  constructor
  · intro hfind
    simp [handleSubscriptionUpdated, huid, hfind]
  · intro p₀ hfind
    refine ⟨{ s with patientDocs := (assocMod s.patientDocs uid
        (fun pd' => { pd' with subscription_status := (some (if ev.cancel_at_period_end then "inactive" else "active")) })) },
      ?_, rfl, rfl, ?_, ?_⟩
    · simp only [handleSubscriptionUpdated, huid, hfind, hpat]
    · simp [jsLookup_assocMod_self, hpat]
    · intro k hk
      exact jsLookup_assocMod_ne _ _ _ _ hk

/-- C6 witness: in `sW`, the event for customer `cus_1` with
`cancel_at_period_end = true` finds `purchaseW` and rewrites only the
patient document's status field. -/
theorem claim_C6_witness :
    (⟨some "u1\n", "cus_1", true⟩ : SubscriptionEvent).client_reference_id
      = some "u1\n" ∧
    jsLookup sW.patientDocs "u1\n" = some pdW ∧
    ((jsLookup sW.purchases "u1\n").getD []).find?
      (fun p => p.stripeCustomerId
        = (⟨some "u1\n", "cus_1", true⟩ : SubscriptionEvent).customer)
      = some purchaseW ∧
    (∃ s₁, handleSubscriptionUpdated ⟨some "u1\n", "cus_1", true⟩ sW = .ok s₁ ∧
      s₁.purchases = sW.purchases ∧
      s₁.health_plans = sW.health_plans ∧
      jsLookup s₁.patientDocs "u1\n" = some { pdW with subscription_status := (some (if (⟨some "u1\n", "cus_1", true⟩ : SubscriptionEvent).cancel_at_period_end then "inactive" else "active")) } ∧
      (∀ k, k ≠ "u1\n" → jsLookup s₁.patientDocs k = jsLookup sW.patientDocs k)) :=
  ⟨rfl, by decide, by decide,
    (claim_C6 sW ⟨some "u1\n", "cus_1", true⟩ "u1\n" pdW rfl (by decide)).2
      purchaseW (by decide)⟩

/-! ## Properties of the id rewrite -/

theorem normalizeId_ne_empty (s : String) : normalizeId s ≠ "" := by
  simp [normalizeId, String.ext_iff]

theorem normalizeId_data_getLast (s : String) :
    (normalizeId s).data.getLast? = some '\n' := by
  simp only [normalizeId]
  exact List.getLast?_concat _

theorem normalizeId_eq_trim_append (s : String) :
    normalizeId s = jsTrim s ++ "\n" := by
  rw [String.ext_iff]
  simp [normalizeId, jsTrim]

theorem jsTrimList_of_all_ws (l : List Char) (h : ∀ c ∈ l, isJsWhitespace c) :
    jsTrimList l = [] := by
  have h1 : l.dropWhile isJsWhitespace = [] := List.dropWhile_eq_nil_iff.mpr h
  simp [jsTrimList, h1]

theorem normalizeId_of_all_ws (s : String) (h : ∀ c ∈ s.data, isJsWhitespace c) :
    normalizeId s = "\n" := by
  rw [String.ext_iff]
  simp [normalizeId, jsTrimList_of_all_ws s.data h]

/-- C8. `getClaimsAndPoints` is read-only: the returned store is exactly
the input store — in particular a missing current-month key is read with
default `{}` (`flattenClaims` uses `getD []`) and never created — and the
response is 404 when the subscriber is missing, otherwise 200 with the
flattened `{name, used, limit}` rows of the current month across all
purchases together with the subscriber's points balance. -/
theorem claim_C8 (raw : String) (s : Store) (d : MonthDate) :
    ∃ resp, getClaims (some raw) s d = .ok (s, resp) ∧
      (jsLookup s.patientDocs (normalizeId raw) = none → resp = .notFound) ∧
      (∀ pd, jsLookup s.patientDocs (normalizeId raw) = some pd →
        resp = .ok
          (flattenClaims ((jsLookup s.purchases (normalizeId raw)).getD [])
            (claimsKey d))
          (pd.points.getD 0)) := by
  refine ⟨(getClaimsCore (normalizeId raw) s d).2, ?_, ?_, ?_⟩
  · simp only [getClaims]
    congr 1
    rw [getClaimsCore]
    rw [if_neg (normalizeId_ne_empty raw)]
    cases h : jsLookup s.patientDocs (normalizeId raw) <;>
      simp [getClaimsCore, normalizeId_ne_empty raw, h]
  · intro hnone
    simp [getClaimsCore, normalizeId_ne_empty raw, hnone]
  · intro pd hpd
    simp [getClaimsCore, normalizeId_ne_empty raw, hpd]

/-- C8 witness: a concrete read against `sW` returns the store unchanged
together with the one flattened `dental` row and the 50 points. -/
theorem claim_C8_witness :
    jsLookup sW.patientDocs (normalizeId "u1") = some pdW ∧
    (∃ resp, getClaims (some "u1") sW dW = .ok (sW, resp) ∧
      (jsLookup sW.patientDocs (normalizeId "u1") = none → resp = .notFound) ∧
      (∀ pd, jsLookup sW.patientDocs (normalizeId "u1") = some pd →
        resp = .ok
          (flattenClaims ((jsLookup sW.purchases (normalizeId "u1")).getD [])
            (claimsKey dW))
          (pd.points.getD 0))) :=
  ⟨by decide, claim_C8 "u1" sW dW⟩

/-- A store whose only patient is keyed by the bare newline string — the
key an empty `patientId` resolves to after the rewrite. -/
def sNl : Store := ⟨[], [("\n", pdW)], []⟩

/-- C9 (refuted as stated): an empty `patientId` does **not** fail with
`InvalidArgument (400)` before any store access.  The rewrite at line 376
runs before the emptiness check, so the id becomes `"\n"`, the check
`if (!patientId)` can never fire, and the store **is** consulted: against
`sW` the call answers 404 (patient `"\n"` absent), while against `sNl`
(which stores a patient under `"\n"`) the same call answers 200 — the
outcome depends on the store.  A missing `patientId` does not answer 400
either: `patientId.trim()` throws a `TypeError` on `undefined`. -/
theorem claim_C9 :
    normalizeId "" = "\n" ∧
    getClaims (some "") sW dW = .ok (sW, .notFound) ∧
    getClaims (some "") sNl dW = .ok (sNl, .ok [] 50) ∧
    getClaims none sW dW = .error .typeError :=
  ⟨by decide, rfl, rfl, rfl⟩

/-- C10. Every direct API entry point that resolves a subscriber by
external id first rewrites the incoming id to `trim(id) + "\n"` and uses
that as the document key: `getClaims`, `useClaim`, `redeemPoints` and
`create-customer-portal` do so unconditionally, and
`create-checkout-session` does so once its presence checks pass (first
five conjuncts).  The rewritten key is the trimmed id with a trailing
newline appended (sixth conjunct), always ends in a newline (seventh), so
a lookup can only succeed for a stored subscriber key ending in a newline
(ninth), and an all-whitespace input resolves to the key `"\n"`
(eighth). -/
theorem claim_C10 (raw name userId planId : String) (amt : Int) (s : Store)
    (d : MonthDate) :
    (getClaims (some raw) s d = .ok (getClaimsCore (normalizeId raw) s d)) ∧
    (useClaim raw name d s = useClaimCore (normalizeId raw) name d s) ∧
    (redeemPoints raw amt s = redeemPointsCore (normalizeId raw) amt s) ∧
    (planId ≠ "" → userId ≠ "" →
      createCheckoutSession planId userId s
        = createCheckoutSessionCore planId (normalizeId userId) s) ∧
    (createCustomerPortal userId planId s
      = createCustomerPortalCore (normalizeId userId) planId s) ∧
    (normalizeId raw = jsTrim raw ++ "\n") ∧
    ((normalizeId raw).data.getLast? = some '\n') ∧
    ((∀ c ∈ raw.data, isJsWhitespace c) → normalizeId raw = "\n") ∧
    (∀ pd, jsLookup s.patientDocs (normalizeId raw) = some pd →
      ∃ k, (k, pd) ∈ s.patientDocs ∧ k.data.getLast? = some '\n') := by
  refine ⟨rfl, rfl, rfl, ?_, rfl, normalizeId_eq_trim_append raw,
    normalizeId_data_getLast raw, normalizeId_of_all_ws raw, ?_⟩
  · intro h1 h2
    simp [createCheckoutSession, h1, h2]
  · intro pd hpd
    exact ⟨normalizeId raw, jsLookup_mem _ _ _ hpd, normalizeId_data_getLast raw⟩

/-- C10 witness: the all-whitespace id `"  "` resolves to the key `"\n"`,
and the concrete id `" u1 "` is rewritten to `"u1\n"` before the lookup. -/
theorem claim_C10_witness :
    (∀ c ∈ ("  " : String).data, isJsWhitespace c) ∧
    normalizeId "  " = "\n" ∧
    normalizeId " u1 " = "u1\n" :=
  ⟨by decide,
    (claim_C10 "  " "" "" "" 0 sW dW).2.2.2.2.2.2.2.1 (by decide),
    by decide⟩
